import Mathlib

/-!
# WasherWatch machine-reservation engine: a shallow embedding

This file embeds the machine reservation state machine of the LaundryQueue
("WasherWatch") web application in Lean 4 and proves properties of it.

The embedding follows the uid-based generation of the code:
`src/utilities/firebaseRealtime.ts` (the store adapter with the
`startMachineTransaction` / `finishMachineTransaction` conditional updates)
and `src/context/QueueContext.tsx` (the engine: `normalizeMachine`, the
periodic `tick`, `startMachine`, `finishMachine`, `sendReminder`).  The
earlier email-keyed `sendReminder` from the first revision of
`QueueContext.tsx` is embedded as well (as `sendReminderEmail`), because the
owner-rejection behaviour differs between the two revisions.

Modelling conventions:
* JS timestamps and numbers are rationals (`ℚ`); an ISO date string is
  identified with its epoch-millisecond value (`Date.parse` of a
  `toISOString` result).  A nullable field is an `Option`.
* JS truthiness is explicit: a nullable number is truthy iff it is present
  and nonzero (`qTruthy`), a nullable string iff it is present and nonempty
  (`sTruthy`).  Valid ISO date strings are never empty, so the truthiness of
  a date-string field is `Option.isSome`.
* The real-time store holds, for the one machine under scrutiny, an
  `Option Machine` (`none` = no record at the key).  `runTransaction`
  applies the updater to the current value: updater result `some m` commits
  `m`, `undefined` (here `Except.ok none`) aborts leaving the record
  unchanged, and a thrown exception (here `Except.error`) rejects the
  transaction, which the surrounding `try`/`catch` converts to `false`.
* `ensureDb()` throwing on an uninitialized store, and a rejected
  `runTransaction` (network / store error), are modelled by the
  `Except String` result and the `txnRejects` environment flag.
-/

namespace LaundryQueue

/-- JS truthiness of a nullable number: `null`/`undefined` and `0` are falsy. -/
def qTruthy : Option ℚ → Bool
  | none => false
  | some q => q != 0

/-- JS truthiness of a nullable string: `null`/`undefined` and `""` are falsy. -/
def sTruthy : Option String → Bool
  | none => false
  | some s => s != ""

/-- JS `a || b` on nullable strings (truthiness-based, unlike `??`). -/
def orStr (a b : Option String) : Option String :=
  if sTruthy a then a else b

/-- `Array.from(new Set(xs))`: deduplicate keeping first occurrences. -/
def jsSetOfList (l : List String) : List String :=
  l.foldl (fun acc x => if x ∈ acc then acc else acc ++ [x]) []

/-- `state` field of a machine: `'available' | 'in-use' | 'finished'`. -/
inductive MachineState
  | available
  | inUse
  | finished
deriving DecidableEq, Repr

/-- The `Machine` record of `QueueContext.tsx` (uid-based revision).  Times
are epoch milliseconds (`ℚ`), nullable fields are `Option`.  The email-keyed
revision uses the same record shape minus the `ownerUid` /
`reminderSubscribersUid` fields, which it simply never touches. -/
structure Machine where
  id : String
  label : String
  state : MachineState
  ownerEmail : Option String := none
  ownerName : Option String := none
  ownerUid : Option String := none
  startTime : Option ℚ := none
  durationMin : Option ℚ := none
  expectedFinishTime : Option ℚ := none
  completedAt : Option ℚ := none
  completionNotifiedAt : Option ℚ := none
  lastReminderSent : Option ℚ := none
  reminderCount : Option ℚ := none
  reminderSubscribers : List String := []
  reminderSubscribersUid : List String := []
deriving DecidableEq, Repr

/-- `createBlankMachine` from `QueueContext.tsx`. -/
def createBlankMachine (id label : String) : Machine :=
  { id := id
    label := label
    state := .available
    ownerEmail := none
    ownerName := none
    ownerUid := none
    startTime := none
    durationMin := none
    expectedFinishTime := none
    completedAt := none
    completionNotifiedAt := none
    lastReminderSent := none
    reminderCount := some 0
    reminderSubscribers := []
    reminderSubscribersUid := [] }

/-- `MACHINE_DEFINITIONS`: the fixed machine catalog. -/
def MACHINE_DEFINITIONS : List (String × String) :=
  [("m1", "W1"), ("m2", "W2"), ("m3", "W3"), ("m4", "D1"), ("m5", "D2"), ("m6", "D3")]

/-- `createInitialMachineMap` / `INITIAL_MACHINE_MAP`: seeded blank catalog. -/
def INITIAL_MACHINE_MAP : List (String × Machine) :=
  MACHINE_DEFINITIONS.map (fun p => (p.1, createBlankMachine p.1 p.2))

/-- The partial machine value read back from the store and fed to
`normalizeMachine`.  For the fields that survive the `{...base, ...value}`
spread unrecomputed (`state`, `completedAt`, `completionNotifiedAt`) we track
presence and value separately (`none` = key absent, `some none` = key present
with value `null`); the remaining fields go through `??` chains or explicit
recomputation, for which JS `null` and `undefined` behave identically, so one
`Option` level suffices.  `reminderSubscribers*` is `none` when the stored
value is not an array (the `Array.isArray` check fails). -/
structure PartialMachine where
  label : Option String := none
  state : Option MachineState := none
  ownerEmail : Option String := none
  ownerId : Option String := none
  ownerName : Option String := none
  ownerUid : Option String := none
  startTime : Option ℚ := none
  durationMin : Option ℚ := none
  expectedFinishTime : Option ℚ := none
  completedAt : Option (Option ℚ) := none
  completionNotifiedAt : Option (Option ℚ) := none
  lastReminderSent : Option ℚ := none
  reminderCount : Option ℚ := none
  reminderSubscribers : Option (List String) := none
  reminderSubscribersUid : Option (List String) := none
deriving DecidableEq, Repr

/-- The `base` record picked by `normalizeMachine`:
`INITIAL_MACHINE_MAP[id] ?? createBlankMachine(id, value.label ?? id)`. -/
def normalizeBase (id : String) (value : PartialMachine) : Machine :=
  (INITIAL_MACHINE_MAP.lookup id).getD (createBlankMachine id (value.label.getD id))

/-- `normalizeMachine` from `QueueContext.tsx` (uid-based revision,
lines 480-515). -/
def normalizeMachine (id : String) (value : PartialMachine) : Machine :=
  let base := normalizeBase id value
  let ownerEmail := value.ownerEmail <|> value.ownerId <|> base.ownerEmail
  let ownerUid := value.ownerUid <|> base.ownerUid
  let startTime := value.startTime <|> base.startTime
  let durationMin := value.durationMin <|> base.durationMin
  let eft0 := value.expectedFinishTime <|> base.expectedFinishTime
  -- `if (!expectedFinishTime && startTime && durationMin)` — note that a
  -- `durationMin` of 0 is falsy, so no derivation happens for it.
  let expectedFinishTime :=
    match eft0, startTime, durationMin with
    | none, some s, some d => if d != 0 then some (s + d * 60000) else none
    | e, _, _ => e
  { id := id
    label := value.label.getD base.label
    state := value.state.getD base.state
    ownerEmail := ownerEmail
    ownerUid := ownerUid
    ownerName := value.ownerName <|> ownerEmail <|> ownerUid <|> base.ownerName
    startTime := startTime
    durationMin := durationMin
    expectedFinishTime := expectedFinishTime
    completedAt := (value.completedAt).getD base.completedAt
    completionNotifiedAt := (value.completionNotifiedAt).getD base.completionNotifiedAt
    lastReminderSent := value.lastReminderSent <|> base.lastReminderSent
    reminderCount := value.reminderCount <|> base.reminderCount
    reminderSubscribers :=
      match value.reminderSubscribers with
      | some l => l.filter (fun s => s != "")
      | none => base.reminderSubscribers
    reminderSubscribersUid :=
      match value.reminderSubscribersUid with
      | some l => l.filter (fun s => s != "")
      | none => base.reminderSubscribersUid }

/-- A notification record as built by `sendNotificationToUid` (uid revision)
or `sendNotification` (email revision).  `recipient` carries the uid
(`recipientUid`) or email (`recipientEmail`) key respectively; `ntype` is the
source's `type` field (a Lean keyword). -/
structure Notification where
  recipient : String
  senderEmail : Option String := none
  message : String
  timestamp : ℚ
  machineId : Option String := none
  ntype : Option String := none
deriving DecidableEq, Repr

/-- The ambient state of `firebaseRealtime.ts` relevant to one call: whether
`initFirebase` ran (`db` non-null, else `ensureDb()` throws), the
authenticated user (`getAuth().currentUser`), and whether the underlying
`runTransaction` promise rejects (network / store error), which the
`try`/`catch` converts to `false`. -/
structure AdapterEnv where
  dbInitialized : Bool := true
  authUid : Option String := none
  authEmail : Option String := none
  authDisplayName : Option String := none
  txnRejects : Bool := false
deriving DecidableEq, Repr

/-- The updater closure of `startMachineTransaction`
(`firebaseRealtime.ts` lines 207-243), applied by `runTransaction` to the
current stored value.  `none` is the `undefined` abort sentinel.  The
`{...current, ...updatedFields, <explicit fields>}` spread resolves to
`updatedFields` overridden by the explicit fields, since callers pass a full
machine record as `updatedFields`. -/
def startUpdater (uid : String) (userEmail userDisplayName : Option String)
    (now : ℚ) (updatedFields : Machine) (current : Option Machine) :
    Option Machine :=
  let durationMin : ℚ := updatedFields.durationMin.getD 35
  let expectedFinishTime : ℚ := now + durationMin * 60000
  let ownerEmail := userEmail
  -- `user?.displayName || updatedFields.ownerName || ownerEmail || null`
  let ownerName := orStr userDisplayName (orStr updatedFields.ownerName (orStr ownerEmail none))
  let common : Machine :=
    { updatedFields with
      state := .inUse
      startTime := some now
      durationMin := some durationMin
      expectedFinishTime := some expectedFinishTime
      completedAt := none
      completionNotifiedAt := none
      ownerUid := some uid
      ownerEmail := ownerEmail
      ownerName := ownerName }
  match current with
  | none => some common
  | some c =>
    if c.state = MachineState.available then some common
    else if c.state = MachineState.inUse ∧ sTruthy c.ownerUid ∧ c.ownerUid ≠ some uid then
      none -- someone else owns it
    else some common -- same owner continuing (or any state other than in-use)

/-- `startMachineTransaction` (`firebaseRealtime.ts` lines 193-250).
`Except.error` models the `ensureDb()` throw escaping the function; an
`Except.ok (committed, store)` pair gives the boolean result and the machine
record stored afterwards. -/
def startMachineTransaction (env : AdapterEnv) (now : ℚ) (store : Option Machine)
    (updatedFields : Machine) : Except String (Bool × Option Machine) :=
  if env.dbInitialized = false then
    Except.error "Realtime DB not initialized - call initFirebase() first"
  else if ¬ sTruthy env.authUid then
    Except.ok (false, store) -- `if (!uid)`: '[startMachineTransaction] no auth uid'
  else
    let uid := env.authUid.getD ""
    if env.txnRejects then Except.ok (false, store) -- caught, returns false
    else
      match startUpdater uid env.authEmail env.authDisplayName now updatedFields store with
      | none => Except.ok (false, store) -- aborted: record unchanged
      | some m => Except.ok (true, some m)

/-- The updater closure of `finishMachineTransaction`
(`firebaseRealtime.ts` lines 263-282).  `Except.error ()` models the
`TypeError` thrown by `current.state` when `current` is `null`;
`Except.ok none` is the `undefined` abort sentinel. -/
def finishUpdater (uid : String) (resetFields : Machine) (current : Option Machine) :
    Except Unit (Option Machine) :=
  match current with
  | none => Except.error ()
  | some c =>
    if c.state = MachineState.inUse ∧ c.ownerUid = some uid then
      Except.ok (some
        { resetFields with
          ownerUid := none
          state := .available
          lastReminderSent := none
          reminderCount := some 0
          reminderSubscribers := [] })
    else Except.ok none -- deny otherwise

/-- `finishMachineTransaction` (`firebaseRealtime.ts` lines 257-288).  An
updater throw makes `runTransaction` reject, which the `catch` turns into
`false` with the record unchanged. -/
def finishMachineTransaction (env : AdapterEnv) (store : Option Machine)
    (resetFields : Machine) : Except String (Bool × Option Machine) :=
  if env.dbInitialized = false then
    Except.error "Realtime DB not initialized - call initFirebase() first"
  else if ¬ sTruthy env.authUid then
    Except.ok (false, store) -- `if (!uid)`: '[finishMachineTransaction] no auth uid'
  else
    let uid := env.authUid.getD ""
    if env.txnRejects then Except.ok (false, store)
    else
      match finishUpdater uid resetFields store with
      | Except.error _ => Except.ok (false, store) -- rejected, caught
      | Except.ok none => Except.ok (false, store) -- aborted
      | Except.ok (some m) => Except.ok (true, some m)

/-- The `const finishTs = ...` expression of the tick body:
`machine.expectedFinishTime ? Date.parse(...) : machine.startTime &&
machine.durationMin ? start + (durationMin ?? 0) * 60_000 : null`. -/
def tickFinishTs (machine : Machine) : Option ℚ :=
  if machine.expectedFinishTime.isSome then machine.expectedFinishTime
  else
    match machine.startTime, machine.durationMin with
    | some s, some d => if d != 0 then some (s + d * 60000) else none
    | _, _ => none

/-- The per-machine body of the periodic `tick` (`QueueContext.tsx`,
uid-based revision, lines 643-696): returns the machine as the tick leaves it
together with the completion notifications it dispatches. -/
def tickMachine (now : ℚ) (machine : Machine) : Machine × List Notification :=
  if machine.state ≠ MachineState.inUse then (machine, [])
  else
    -- `if (!finishTs || now < finishTs)` — a `finishTs` of 0 is falsy
    if ¬ qTruthy (tickFinishTs machine) ∨ now < (tickFinishTs machine).getD 0 then (machine, [])
    else
      let completedAt : ℚ := machine.completedAt.getD now
      let expectedFinishTime : ℚ := machine.expectedFinishTime.getD ((tickFinishTs machine).getD 0)
      -- `if (!machine.completionNotifiedAt && machine.ownerUid)`
      let notify : Bool := ¬ qTruthy machine.completionNotifiedAt ∧ sTruthy machine.ownerUid
      let updated : Machine :=
        { machine with
          state := .finished
          completedAt := some completedAt
          expectedFinishTime := some expectedFinishTime
          completionNotifiedAt :=
            if notify then some now else some (machine.completionNotifiedAt.getD now) }
      let notifs : List Notification :=
        if notify then
          [{ recipient := machine.ownerUid.getD ""
             message := "Your laundry in " ++ machine.label ++ " is done!"
             timestamp := now
             machineId := some machine.id
             ntype := some "completion" }]
        else []
      (updated, notifs)

/-- One full `tick` pass over the machine snapshot (`QueueContext.tsx`
lines 631-708): the updated list and all notifications, in loop order. -/
def tick (now : ℚ) (machines : List Machine) : List Machine × List Notification :=
  machines.foldr
    (fun m acc =>
      let r := tickMachine now m
      (r.1 :: acc.1, r.2 ++ acc.2))
    ([], [])

/-- `finishMachine` (`QueueContext.tsx`, uid-based revision, lines 769-823).
Returns the pickup notifications it sends, the transaction's committed flag
(internal to the function — its own result type is `void`), and the machine
record stored afterwards.  Note that the notifications are dispatched
*before* the ownership-checked transaction runs, and that the subscriber
list is not filtered against the owner. -/
def finishMachine (env : AdapterEnv) (now : ℚ) (machines : List Machine)
    (store : Option Machine) (id : String) :
    List Notification × Bool × Option Machine :=
  match machines.find? (fun m => m.id = id) with
  | none => ([], false, store)
  | some machine =>
    let subscriberUids := jsSetOfList machine.reminderSubscribersUid
    let notifs : List Notification :=
      subscriberUids.map (fun uid =>
        { recipient := uid
          message := machine.label ++ " is now available."
          timestamp := now
          machineId := some machine.id
          ntype := some "pickup" })
    let reset : Machine :=
      { machine with
        state := .available
        ownerEmail := none
        ownerName := none
        ownerUid := none
        startTime := none
        durationMin := none
        expectedFinishTime := none
        completedAt := none
        completionNotifiedAt := none
        lastReminderSent := none
        reminderCount := some 0
        reminderSubscribers := []
        reminderSubscribersUid := [] }
    match finishMachineTransaction env store reset with
    | Except.error _ => (notifs, false, store) -- caught by the try/catch
    | Except.ok (committed, store2) => (notifs, committed, store2)

/-- `REMINDER_THROTTLE_MS` (both revisions of `QueueContext.tsx`). -/
def REMINDER_THROTTLE_MS : ℚ := 60000

/-- `sendReminder` (`QueueContext.tsx`, uid-based revision, lines 827-876).
Returns the boolean result, the reminder notifications dispatched, and the
machine record written (as `some`) or `none` when nothing was written.
`fromEmail` is accepted but unused in this revision; the caller identity is
the auth uid. -/
def sendReminder (callerUid : Option String) (now : ℚ) (machines : List Machine)
    (id : String) (fromEmail : String) :
    Bool × List Notification × Option Machine :=
  match machines.find? (fun m => m.id = id) with
  | none => (false, [], none)
  | some machine =>
    let finishTs : Option ℚ := machine.expectedFinishTime
    let timerExpired : Bool := finishTs.isSome ∧ finishTs.getD 0 ≤ now
    let readyToRemind : Bool := machine.state = MachineState.finished ∨ timerExpired
    if ¬ readyToRemind then (false, [], none)
    else if qTruthy machine.lastReminderSent ∧ now - machine.lastReminderSent.getD 0 < REMINDER_THROTTLE_MS then
      (false, [], none)
    else
      let subsSet := jsSetOfList machine.reminderSubscribersUid
      let subscribersUid :=
        match callerUid with
        | some u => if u ∈ subsSet then subsSet else subsSet ++ [u]
        | none => subsSet
      let updated : Machine :=
        { machine with
          lastReminderSent := some now
          reminderCount := some (machine.reminderCount.getD 0 + 1)
          reminderSubscribersUid := subscribersUid }
      let notifs : List Notification :=
        if sTruthy machine.ownerUid then
          [{ recipient := machine.ownerUid.getD ""
             message := "Someone is waiting for " ++ machine.label ++ ". Please pick up your laundry."
             timestamp := now
             machineId := some machine.id
             ntype := some "reminder" }]
        else [] -- '[sendReminder] ownerUid missing, skipped sending by UID'
      (true, notifs, some updated)

/-- `sendReminder` of the first, email-keyed revision of `QueueContext.tsx`
(lines 316-364): this revision rejects calls when the machine has no
`ownerEmail` or when the caller *is* the owner. -/
def sendReminderEmail (now : ℚ) (machines : List Machine)
    (id : String) (fromEmail : String) :
    Bool × List Notification × Option Machine :=
  match machines.find? (fun m => m.id = id) with
  | none => (false, [], none)
  | some machine =>
    if ¬ sTruthy machine.ownerEmail then (false, [], none)
    else if machine.ownerEmail = some fromEmail then (false, [], none)
    else
      let finishTs : Option ℚ := machine.expectedFinishTime
      let timerExpired : Bool := finishTs.isSome ∧ finishTs.getD 0 ≤ now
      let readyToRemind : Bool := machine.state = MachineState.finished ∨ timerExpired
      if ¬ readyToRemind then (false, [], none)
      else if qTruthy machine.lastReminderSent ∧ now - machine.lastReminderSent.getD 0 < REMINDER_THROTTLE_MS then
        (false, [], none)
      else
        let subsSet := jsSetOfList machine.reminderSubscribers
        let subscribers := if fromEmail ∈ subsSet then subsSet else subsSet ++ [fromEmail]
        let updated : Machine :=
          { machine with
            lastReminderSent := some now
            reminderCount := some (machine.reminderCount.getD 0 + 1)
            reminderSubscribers := subscribers }
        let notifs : List Notification :=
          [{ recipient := machine.ownerEmail.getD ""
             senderEmail := some fromEmail
             message := "Someone is waiting for " ++ machine.label ++ ". Please pick up your laundry."
             timestamp := now
             machineId := some machine.id
             ntype := some "reminder" }]
        (true, notifs, some updated)

/-! ## Spec-side predicates -/

/-- The data-model invariant of spec §3: `state == available` iff the owner
identity (`ownerUid` / `ownerEmail`) is null, together with `startTime` and
`durationMin`. -/
def availInv (m : Machine) : Prop :=
  m.state = MachineState.available ↔
    (m.ownerUid = none ∧ m.ownerEmail = none ∧ m.startTime = none ∧ m.durationMin = none)

instance (m : Machine) : Decidable (availInv m) := by
  unfold availInv; infer_instance

/-- The call returned normally (no exception escaped to the caller). -/
def exceptOk {α : Type} : Except String α → Bool
  | Except.ok _ => true
  | Except.error _ => false

/-- Whenever the call reports `false`, the stored record is unchanged. -/
def failureLeavesStore (r : Except String (Bool × Option Machine))
    (store : Option Machine) : Prop :=
  ∀ s', r = Except.ok (false, s') → s' = store

/-! ## Sample records used to instantiate the theorems -/

/-- A machine in state `finished`, owned by alice, with two reminder
subscribers — the state every machine reaches after its cycle elapses and
before the owner picks up. -/
def mFin : Machine :=
  { createBlankMachine "m1" "W1" with
    state := .finished
    ownerUid := some "uid-alice"
    ownerEmail := some "alice@example.com"
    ownerName := some "Alice"
    startTime := some 1000
    durationMin := some 35
    expectedFinishTime := some 2101000
    completedAt := some 2101000
    completionNotifiedAt := some 2101000
    reminderSubscribersUid := ["uid-s1", "uid-s2"] }

/-- A machine in use by alice whose timer expires at t = 2101000. -/
def mRun : Machine :=
  { createBlankMachine "m1" "W1" with
    state := .inUse
    ownerUid := some "uid-alice"
    ownerEmail := some "alice@example.com"
    ownerName := some "Alice"
    startTime := some 1000
    durationMin := some 35
    expectedFinishTime := some 2101000 }

/-- The seeded blank machine `m1`. -/
def mAvail : Machine := createBlankMachine "m1" "W1"

/-- The `updatedFields` record a `startMachine` call for bob would pass. -/
def fieldsBob : Machine :=
  { createBlankMachine "m1" "W1" with
    state := .inUse
    ownerUid := some "uid-bob"
    ownerEmail := some "bob@example.com"
    ownerName := some "Bob"
    startTime := some 5000000
    durationMin := some 45
    expectedFinishTime := some 7700000 }

/-- An environment authenticated as bob against an initialized store. -/
def envBob : AdapterEnv :=
  { dbInitialized := true
    authUid := some "uid-bob"
    authEmail := some "bob@example.com"
    authDisplayName := some "Bob" }

/-- An environment authenticated as alice against an initialized store. -/
def envAlice : AdapterEnv :=
  { dbInitialized := true
    authUid := some "uid-alice"
    authEmail := some "alice@example.com"
    authDisplayName := some "Alice" }

/-- An initialized store with no authenticated user. -/
def envNoAuth : AdapterEnv := { dbInitialized := true, authUid := none }

/-- `initFirebase()` was never called: `ensureDb()` throws. -/
def envNoDb : AdapterEnv := { dbInitialized := false, authUid := some "uid-bob" }

/-! ## Theorems -/

/-- C1 (counterexample): the start transaction does *not* abort in every case
outside missing / available / in-use-by-caller: a machine in state
`finished`, owned by a different identity (alice), still commits for bob —
the updater only aborts on `in-use` records with a foreign non-null
`ownerUid`. -/
theorem startMachineTransaction_commits_on_foreign_finished :
    mFin.state = MachineState.finished ∧
    mFin.ownerUid ≠ envBob.authUid ∧
    (startMachineTransaction envBob 3000000 (some mFin) fieldsBob).toOption.map Prod.fst
      = some true := by
  decide

/-- C2 (counterexample): a non-owner `finishMachine` call on a machine with
reminder subscribers *does* send pickup notifications: the dispatch happens
before the ownership-checked transaction, which then aborts. -/
theorem finishMachine_nonowner_sends_notifications :
    mFin.ownerUid ≠ envBob.authUid ∧
    (finishMachine envBob 3000000 [mFin] (some mFin) "m1").1 ≠ [] ∧
    (finishMachine envBob 3000000 [mFin] (some mFin) "m1").2.1 = false := by
  decide

/-- C3 (code bug, evaluated at the failing input): the owner (alice) calls
`finishMachine` on her `finished` machine with two reminder subscribers.
Both subscribers are sent a `pickup` notification, but the release
transaction aborts (`committed = false`) because `finishMachineTransaction`'s
updater only accepts machines in state `in-use` — the machine is *not* reset
to `available`; it stays `finished` with all owner fields intact. -/
theorem finishMachine_finished_owner_not_reset :
    mFin.state = MachineState.finished ∧
    mFin.ownerUid = envAlice.authUid ∧
    finishMachine envAlice 3000000 [mFin] (some mFin) "m1" =
      ([{ recipient := "uid-s1", message := "W1 is now available.", timestamp := 3000000,
          machineId := some "m1", ntype := some "pickup" },
        { recipient := "uid-s2", message := "W1 is now available.", timestamp := 3000000,
          machineId := some "m1", ntype := some "pickup" }],
       false, some mFin) := by
  decide

/-- C4 (counterexample): the uid-based `sendReminder` performs no owner
check: the owner of a finished machine calling it on her own machine gets
`true` (and a reminder notification addressed to herself), not `false`. -/
theorem sendReminder_by_owner_succeeds :
    mFin.ownerUid = some "uid-alice" ∧
    mFin.ownerEmail = some "alice@example.com" ∧
    (sendReminder (some "uid-alice") 3000000 [mFin] "m1" "alice@example.com").1 = true := by
  decide

/-- C6 (counterexample): normalization does not enforce the
available-iff-unowned invariant: reading back a malformed record carrying
only `state: 'in-use'` yields an `in-use` machine with a null owner
identity. -/
theorem normalizeMachine_violates_availInv :
    ¬ availInv (normalizeMachine "m1" { state := some MachineState.inUse }) := by
  decide

/-- C8 (counterexample): with `startTime` present and `durationMin`
present-but-zero (non-null), normalization does *not* derive
`expectedFinishTime` — the JS guard tests truthiness, and `0` is falsy. -/
theorem normalizeMachine_zero_duration_not_derived :
    (normalizeMachine "m1" { startTime := some 1000, durationMin := some 0 }).expectedFinishTime
      ≠ some (1000 + 0 * 60000) := by
  decide

/-- C9 (counterexample): with the store never initialized, both transaction
helpers propagate the `ensureDb()` exception to the caller instead of
returning `false` — `ensureDb()` runs outside the `try`/`catch`. -/
theorem transactions_throw_when_uninitialized :
    startMachineTransaction envNoDb 0 none fieldsBob =
      Except.error "Realtime DB not initialized - call initFirebase() first" ∧
    finishMachineTransaction envNoDb none fieldsBob =
      Except.error "Realtime DB not initialized - call initFirebase() first" :=
  ⟨rfl, rfl⟩

/-- C10: with an initialized store and no authenticated user, both
`startMachineTransaction` and `finishMachineTransaction` return `false`
without touching the stored record. -/
theorem transactions_no_uid_noop (env : AdapterEnv) (now : ℚ) (store : Option Machine)
    (f r : Machine) (hdb : env.dbInitialized = true) (huid : env.authUid = none) :
    startMachineTransaction env now store f = Except.ok (false, store) ∧
    finishMachineTransaction env store r = Except.ok (false, store) := by
  unfold startMachineTransaction finishMachineTransaction
  simp [hdb, huid, sTruthy]

/-- C10 witness: the no-uid no-op at a concrete environment. -/
theorem transactions_no_uid_noop_witness :
    startMachineTransaction envNoAuth 0 none fieldsBob = Except.ok (false, none) :=
  (transactions_no_uid_noop envNoAuth 0 none fieldsBob fieldsBob rfl rfl).1

/-- Helper: with an initialized store, `startMachineTransaction` always
returns a boolean, and a `false` leaves the store unchanged. -/
theorem start_returns_ok (env : AdapterEnv) (now : ℚ) (store : Option Machine) (f : Machine)
    (hdb : env.dbInitialized = true) :
    ∃ b s', startMachineTransaction env now store f = Except.ok (b, s') ∧
      (b = false → s' = store) := by
  unfold startMachineTransaction
  simp only [hdb]
  by_cases hs : sTruthy env.authUid
  · simp only [hs, not_true, if_false]
    by_cases ht : env.txnRejects
    · simp only [ht, if_true]
      exact ⟨false, store, rfl, fun _ => rfl⟩
    · simp only [ht, if_false]
      cases h : startUpdater (env.authUid.getD "") env.authEmail env.authDisplayName now f store with
      | none => exact ⟨false, store, rfl, fun _ => rfl⟩
      | some m => exact ⟨true, some m, rfl, by simp⟩
  · simp only [hs, not_false_iff, if_true]
    exact ⟨false, store, by simp [hs], fun _ => rfl⟩

/-- Helper: with an initialized store, `finishMachineTransaction` always
returns a boolean, and a `false` leaves the store unchanged. -/
theorem finish_returns_ok (env : AdapterEnv) (store : Option Machine) (r : Machine)
    (hdb : env.dbInitialized = true) :
    ∃ b s', finishMachineTransaction env store r = Except.ok (b, s') ∧
      (b = false → s' = store) := by
  unfold finishMachineTransaction
  simp only [hdb]
  by_cases hs : sTruthy env.authUid
  · simp only [hs, not_true, if_false]
    by_cases ht : env.txnRejects
    · simp only [ht, if_true]
      exact ⟨false, store, rfl, fun _ => rfl⟩
    · simp only [ht, if_false]
      cases h : finishUpdater (env.authUid.getD "") r store with
      | error e => exact ⟨false, store, rfl, fun _ => rfl⟩
      | ok o =>
        cases o with
        | none => exact ⟨false, store, rfl, fun _ => rfl⟩
        | some m => exact ⟨true, some m, rfl, by simp⟩
  · simp only [hs, not_false_iff, if_true]
    exact ⟨false, store, by simp [hs], fun _ => rfl⟩

/-- Helper: package the existential result shape into the two spec-side
predicates. -/
theorem txn_ok_spec {r : Except String (Bool × Option Machine)} {store : Option Machine}
    (h : ∃ b s', r = Except.ok (b, s') ∧ (b = false → s' = store)) :
    exceptOk r = true ∧ failureLeavesStore r store := by
  obtain ⟨b, s', heq, himp⟩ := h
  subst heq
  refine ⟨rfl, ?_⟩
  intro s2 h2
  injection h2 with h3
  rw [Prod.mk.injEq] at h3
  obtain ⟨hb, hs⟩ := h3
  subst hb; subst hs
  exact himp rfl

/-- C9 (amended): provided the store adapter has been initialized, both
transaction helpers report every failure — lost race, stale precondition,
missing record, or an underlying store error — solely as the boolean `false`
and never as a thrown exception, and a `false` result leaves the stored
machine record unchanged.  (Without the initialization proviso the claim
fails: `ensureDb()` throws, see the counterexample.) -/
theorem transactions_report_failures_as_false (env : AdapterEnv) (now : ℚ)
    (store : Option Machine) (f r : Machine) (hdb : env.dbInitialized = true) :
    exceptOk (startMachineTransaction env now store f) = true ∧
    failureLeavesStore (startMachineTransaction env now store f) store ∧
    exceptOk (finishMachineTransaction env store r) = true ∧
    failureLeavesStore (finishMachineTransaction env store r) store := by
  obtain ⟨h1, h2⟩ := txn_ok_spec (start_returns_ok env now store f hdb)
  obtain ⟨h3, h4⟩ := txn_ok_spec (finish_returns_ok env store r hdb)
  exact ⟨h1, h2, h3, h4⟩

/-- C9 witness: no exception escapes at a concrete initialized environment. -/
theorem transactions_report_failures_as_false_witness :
    exceptOk (startMachineTransaction envBob 0 (some mFin) fieldsBob) = true :=
  (transactions_report_failures_as_false envBob 0 (some mFin) fieldsBob fieldsBob rfl).1

/-- Helper: when the authenticated caller (if any) does not own the stored
machine record, `finishMachineTransaction` either returns `false` with the
store unchanged, or throws (uninitialized store). -/
theorem finishTxn_nonowner (env : AdapterEnv) (store : Option Machine) (resetFields : Machine)
    (hown : ∀ c u, store = some c → env.authUid = some u → c.ownerUid ≠ some u) :
    finishMachineTransaction env store resetFields = Except.ok (false, store) ∨
    ∃ e, finishMachineTransaction env store resetFields = Except.error e := by
  unfold finishMachineTransaction
  by_cases hdb : env.dbInitialized = false
  · right
    exact ⟨"Realtime DB not initialized - call initFirebase() first", by rw [if_pos hdb]⟩
  · simp only [hdb, if_false]
    by_cases hs : sTruthy env.authUid
    · simp only [hs, not_true, if_false]
      by_cases ht : env.txnRejects
      · left; simp [ht]
      · simp only [ht, if_false]
        cases store with
        | none => left; rfl
        | some c =>
          have huid : env.authUid = some (env.authUid.getD "") := by
            cases ha : env.authUid with
            | none => rw [ha] at hs; simp [sTruthy] at hs
            | some u => simp
          have hne := hown c (env.authUid.getD "") rfl huid
          have hcond : ¬ (c.state = MachineState.inUse ∧ c.ownerUid = some (env.authUid.getD "")) := by
            rintro ⟨_, h2⟩; exact hne h2
          left
          simp [finishUpdater, hcond]
    · simp only [hs, not_false_iff, if_true]
      left; simp [hs]

/-- C2 (amended): for every machine and every caller identity that is not
the machine's current owner, `finishMachine` leaves the release transaction
uncommitted (`false`) and the stored machine record unchanged; however, the
pickup notifications to the snapshot's `reminderSubscribersUid` set are
dispatched regardless, because the dispatch precedes the ownership-checked
transaction (see the counterexample). -/
theorem finishMachine_nonowner_aborts (env : AdapterEnv) (now : ℚ)
    (machines : List Machine) (store : Option Machine) (id : String)
    (hown : ∀ c u, store = some c → env.authUid = some u → c.ownerUid ≠ some u) :
    (finishMachine env now machines store id).2.1 = false ∧
    (finishMachine env now machines store id).2.2 = store := by
  unfold finishMachine
  cases hf : machines.find? (fun m => m.id = id) with
  | none => exact ⟨rfl, rfl⟩
  | some machine =>
    have h := finishTxn_nonowner env store
      { machine with
        state := .available
        ownerEmail := none
        ownerName := none
        ownerUid := none
        startTime := none
        durationMin := none
        expectedFinishTime := none
        completedAt := none
        completionNotifiedAt := none
        lastReminderSent := none
        reminderCount := some 0
        reminderSubscribers := []
        reminderSubscribersUid := [] } hown
    rcases h with h | ⟨e, h⟩ <;> simp [h]

/-- C2 witness: bob (a non-owner) finishing alice's machine does not change
the stored record and the transaction does not commit. -/
theorem finishMachine_nonowner_aborts_witness :
    (finishMachine envBob 3000000 [mFin] (some mFin) "m1").2.2 = some mFin :=
  (finishMachine_nonowner_aborts envBob 3000000 [mFin] (some mFin) "m1"
    (by intro c u hc hu; injection hc with h1; injection hu with h2
        subst h1; subst h2; decide)).2

/-- Helper: the start updater aborts exactly on an `in-use` record with a
truthy `ownerUid` different from the caller's uid. -/
theorem startUpdater_none_iff (uid : String) (ue un : Option String) (now : ℚ)
    (f : Machine) (current : Option Machine) :
    startUpdater uid ue un now f current = none ↔
      ∃ c, current = some c ∧ c.state = MachineState.inUse ∧
        sTruthy c.ownerUid = true ∧ c.ownerUid ≠ some uid := by
  cases current with
  | none => simp [startUpdater]
  | some c =>
    simp only [startUpdater, Option.some.injEq]
    by_cases h1 : c.state = MachineState.available
    · simp [h1]
    · simp only [h1, if_false]
      by_cases h2 : c.state = MachineState.inUse ∧ sTruthy c.ownerUid = true ∧ c.ownerUid ≠ some uid
      · obtain ⟨ha, hb, hc⟩ := h2
        simp [ha, hb, hc]
      · rw [if_neg h2]
        constructor
        · intro h; exact absurd h (by simp)
        · rintro ⟨c2, hc2, hs, ht, hu⟩
          subst hc2
          exact absurd ⟨hs, ht, hu⟩ h2

/-- Helper: a committed start updater result is `in-use` and owned by the
caller. -/
theorem startUpdater_some_fields (uid : String) (ue un : Option String) (now : ℚ)
    (f : Machine) (current : Option Machine) (w : Machine)
    (h : startUpdater uid ue un now f current = some w) :
    w.state = MachineState.inUse ∧ w.ownerUid = some uid := by
  cases current with
  | none =>
    simp only [startUpdater, Option.some.injEq] at h
    subst h; exact ⟨rfl, rfl⟩
  | some c =>
    simp only [startUpdater] at h
    split_ifs at h with h1 h2 <;> cases h <;> exact ⟨rfl, rfl⟩

/-- Helper: under an initialized store, an authenticated caller with a
non-empty uid and no store error, the start transaction is exactly the
updater's verdict. -/
theorem startTxn_reduce (env : AdapterEnv) (now : ℚ) (store : Option Machine) (f : Machine)
    (uid : String) (hdb : env.dbInitialized = true) (huid : env.authUid = some uid)
    (hne : uid ≠ "") (htx : env.txnRejects = false) :
    startMachineTransaction env now store f =
      match startUpdater uid env.authEmail env.authDisplayName now f store with
      | none => Except.ok (false, store)
      | some m => Except.ok (true, some m) := by
  unfold startMachineTransaction
  have hs : sTruthy env.authUid = true := by simp [huid, sTruthy, hne]
  simp [hdb, hs, htx, huid, sTruthy, hne]

/-- C1 (amended): under an initialized store, an authenticated caller `uid`
and no store error, the start transaction commits exactly when the current
record is *not* an `in-use` record with a truthy `ownerUid` different from
`uid` — i.e. also when the record is missing, `available`, `in-use` by the
caller (or with no recorded `ownerUid`), or `finished` (the case the claim
missed, see the counterexample).  In particular, for two simultaneous start
calls by different identities on the same `available` machine, the winner
commits and the loser's call returns `false` leaving the record exactly as
the winner wrote it. -/
theorem startMachineTransaction_spec (env : AdapterEnv) (now : ℚ)
    (store : Option Machine) (f : Machine) (uid : String)
    (hdb : env.dbInitialized = true) (huid : env.authUid = some uid)
    (hne : uid ≠ "") (htx : env.txnRejects = false) :
    ((startMachineTransaction env now store f).toOption.map Prod.fst = some true ↔
      ∀ c, store = some c →
        ¬ (c.state = MachineState.inUse ∧ sTruthy c.ownerUid = true ∧ c.ownerUid ≠ some uid)) ∧
    (∀ (env2 : AdapterEnv) (now2 : ℚ) (f2 : Machine) (uid2 : String) (a w : Machine),
      env2.dbInitialized = true → env2.authUid = some uid2 → env2.txnRejects = false →
      uid2 ≠ uid → store = some a → a.state = MachineState.available →
      startMachineTransaction env now store f = Except.ok (true, some w) →
      startMachineTransaction env2 now2 (some w) f2 = Except.ok (false, some w)) := by
  constructor
  · rw [startTxn_reduce env now store f uid hdb huid hne htx]
    cases hu : startUpdater uid env.authEmail env.authDisplayName now f store with
    | none =>
      rw [startUpdater_none_iff] at hu
      obtain ⟨c, hc, h1, h2, h3⟩ := hu
      constructor
      · intro habs; simp [Except.toOption] at habs
      · intro hall; exact absurd ⟨h1, h2, h3⟩ (hall c hc)
    | some m =>
      constructor
      · intro _ c hc hcond
        have hnone := (startUpdater_none_iff uid env.authEmail env.authDisplayName now f store).mpr
          ⟨c, hc, hcond.1, hcond.2.1, hcond.2.2⟩
        rw [hu] at hnone
        cases hnone
      · intro _; simp [Except.toOption]
  · intro env2 now2 f2 uid2 a w hdb2 huid2 htx2 hneq hsa hav hcommit
    rw [startTxn_reduce env now store f uid hdb huid hne htx] at hcommit
    have hu : startUpdater uid env.authEmail env.authDisplayName now f store = some w := by
      cases hu2 : startUpdater uid env.authEmail env.authDisplayName now f store with
      | none => rw [hu2] at hcommit; cases hcommit
      | some m =>
        rw [hu2] at hcommit
        injection hcommit with h3
        rw [Prod.mk.injEq] at h3
        obtain ⟨_, hm⟩ := h3
        injection hm with hm2
        rw [hm2]
    obtain ⟨hws, hwu⟩ := startUpdater_some_fields uid env.authEmail env.authDisplayName now f store w hu
    by_cases h2e : uid2 = ""
    · unfold startMachineTransaction
      have hs2 : sTruthy env2.authUid = false := by simp [huid2, h2e, sTruthy]
      simp [hdb2, hs2]
    · rw [startTxn_reduce env2 now2 (some w) f2 uid2 hdb2 huid2 h2e htx2]
      have hn : startUpdater uid2 env2.authEmail env2.authDisplayName now2 f2 (some w) = none := by
        refine (startUpdater_none_iff uid2 env2.authEmail env2.authDisplayName now2 f2 (some w)).mpr
          ⟨w, rfl, hws, ?_, ?_⟩
        · simp [hwu, sTruthy, hne]
        · rw [hwu]
          intro hx
          injection hx with hx2
          exact hneq hx2.symm
      rw [hn]

/-- C1 witness: bob's start call on the seeded available machine commits. -/
theorem startMachineTransaction_spec_witness :
    (startMachineTransaction envBob 5000000 (some mAvail) fieldsBob).toOption.map Prod.fst
      = some true :=
  ((startMachineTransaction_spec envBob 5000000 (some mAvail) fieldsBob "uid-bob" rfl rfl
      (by decide) rfl).1).mpr
    (by intro c hc; injection hc with h1; subst h1; decide)

/-- C4 (amended): the email-keyed revision's `sendReminder` does behave as
the claim states — it returns `false` with no notification and no write when
the machine has no (truthy) `ownerEmail` or when the caller *is* the owner.
The uid-keyed revision omits both checks (see the counterexample). -/
theorem sendReminderEmail_rejects (now : ℚ) (machines : List Machine) (id fromEmail : String)
    (m : Machine) (hfind : machines.find? (fun x => x.id = id) = some m)
    (h : sTruthy m.ownerEmail = false ∨ m.ownerEmail = some fromEmail) :
    sendReminderEmail now machines id fromEmail = (false, [], none) := by
  unfold sendReminderEmail
  rw [hfind]
  rcases h with h | h
  · simp [h]
  · by_cases hs : sTruthy m.ownerEmail
    · simp [hs, h]
    · simp [hs]

/-- C4 witness: alice calling the email-keyed `sendReminder` on her own
machine is rejected with no side effect. -/
theorem sendReminderEmail_rejects_witness :
    sendReminderEmail 10 [mFin] "m1" "alice@example.com" = (false, [], none) :=
  sendReminderEmail_rejects 10 [mFin] "m1" "alice@example.com" mFin (by decide)
    (Or.inr (by decide))

/-- C5: an `in-use` machine whose (positive) `expectedFinishTime` has
elapsed is flipped to `finished` by the tick; `completedAt` is set to its
previous value if present and to `now` otherwise; exactly one `completion`
notification is dispatched to the owner, guarded by `completionNotifiedAt`;
and any subsequent tick leaves the machine unchanged and dispatches
nothing. -/
theorem tick_autocomplete (m : Machine) (u : String) (t now now2 : ℚ)
    (hstate : m.state = MachineState.inUse)
    (heft : m.expectedFinishTime = some t) (htpos : 0 < t) (helapsed : t ≤ now)
    (hu : m.ownerUid = some u) (hune : u ≠ "")
    (hguard : m.completionNotifiedAt = none) :
    (tickMachine now m).1.state = MachineState.finished ∧
    (tickMachine now m).1.completedAt = some (m.completedAt.getD now) ∧
    (tickMachine now m).1.completionNotifiedAt = some now ∧
    (tickMachine now m).2 =
      [{ recipient := u
         message := "Your laundry in " ++ m.label ++ " is done!"
         timestamp := now
         machineId := some m.id
         ntype := some "completion" }] ∧
    tickMachine now2 (tickMachine now m).1 = ((tickMachine now m).1, []) := by
  have hq : qTruthy (some t) = true := by simp [qTruthy]; exact htpos.ne'
  have hnl : ¬ now < t := not_lt.mpr helapsed
  have hred : tickMachine now m =
      ({ m with
          state := .finished
          completedAt := some (m.completedAt.getD now)
          expectedFinishTime := some t
          completionNotifiedAt := some now },
        [{ recipient := u
           message := "Your laundry in " ++ m.label ++ " is done!"
           timestamp := now
           machineId := some m.id
           ntype := some "completion" }]) := by
    unfold tickMachine
    simp [hstate, heft, hguard, hu, hune, hq, hnl, qTruthy, sTruthy, htpos.ne', tickFinishTs]
  rw [hred]
  refine ⟨rfl, rfl, rfl, rfl, ?_⟩
  unfold tickMachine
  simp

/-- C5 witness: alice's running machine at an elapsed time. -/
theorem tick_autocomplete_witness :
    (tickMachine 2101001 mRun).1.state = MachineState.finished :=
  (tick_autocomplete mRun "uid-alice" 2101000 2101001 2101002 rfl rfl (by norm_num)
    (by norm_num) rfl (by decide) rfl).1

/-- C7: on a `finished` machine with no prior reminder, a first
`sendReminder` at `t1 > 0` succeeds; a second call (any caller) strictly
within 60 seconds of `t1` on the written-back machine returns `false` with
no side effect; a call made once 60 seconds have elapsed returns `true`. -/
theorem sendReminder_throttle (c1 c2 c3 : Option String) (m : Machine)
    (from1 from2 from3 : String) (t1 t2 t3 : ℚ)
    (hfin : m.state = MachineState.finished)
    (hlast : m.lastReminderSent = none)
    (ht1 : 0 < t1) (hwin : t2 - t1 < REMINDER_THROTTLE_MS)
    (hafter : REMINDER_THROTTLE_MS ≤ t3 - t1) :
    (sendReminder c1 t1 [m] m.id from1).1 = true ∧
    (∀ m1, (sendReminder c1 t1 [m] m.id from1).2.2 = some m1 →
      sendReminder c2 t2 [m1] m.id from2 = (false, [], none) ∧
      (sendReminder c3 t3 [m1] m.id from3).1 = true) := by
  have hfind : [m].find? (fun x => x.id = m.id) = some m := by simp
  have hred1 : sendReminder c1 t1 [m] m.id from1 =
      (true,
       (if sTruthy m.ownerUid then
          [{ recipient := m.ownerUid.getD ""
             message := "Someone is waiting for " ++ m.label ++ ". Please pick up your laundry."
             timestamp := t1
             machineId := some m.id
             ntype := some "reminder" }]
        else []),
       some { m with
              lastReminderSent := some t1
              reminderCount := some (m.reminderCount.getD 0 + 1)
              reminderSubscribersUid :=
                match c1 with
                | some u => if u ∈ jsSetOfList m.reminderSubscribersUid then
                    jsSetOfList m.reminderSubscribersUid
                  else jsSetOfList m.reminderSubscribersUid ++ [u]
                | none => jsSetOfList m.reminderSubscribersUid }) := by
    unfold sendReminder
    rw [hfind]
    simp [hfin, hlast, qTruthy]
  refine ⟨by rw [hred1], ?_⟩
  intro m1 hm1
  rw [hred1] at hm1
  simp only [Option.some.injEq] at hm1
  subst hm1
  constructor
  · unfold sendReminder
    simp [hfin, qTruthy, ht1.ne', hwin]
  · unfold sendReminder
    simp [hfin, qTruthy, ht1.ne', not_lt.mpr hafter]

/-- C7 witness: a subscriber's reminder on alice's finished machine (no
prior reminder) succeeds. -/
theorem sendReminder_throttle_witness :
    (sendReminder (some "uid-s1") 2200000 [mFin] mFin.id "s1@example.com").1 = true :=
  (sendReminder_throttle (some "uid-s1") (some "uid-s2") (some "uid-s2") mFin
    "s1@example.com" "s2@example.com" "s2@example.com" 2200000 2250000 2260000
    rfl rfl (by norm_num) (by norm_num [REMINDER_THROTTLE_MS])
    (by norm_num [REMINDER_THROTTLE_MS])).1

/-- Helper: the `base` record of normalization never carries an
`expectedFinishTime` (all catalog blanks have it null). -/
theorem normalizeBase_eft (id : String) (v : PartialMachine) :
    (normalizeBase id v).expectedFinishTime = none := by
  unfold normalizeBase INITIAL_MACHINE_MAP MACHINE_DEFINITIONS
  simp only [List.map, List.lookup_cons]
  repeat' split
  all_goals simp [createBlankMachine]

/-- C8 (amended): normalization keeps an explicitly present
`expectedFinishTime` as-is, and derives `startTime + durationMin * 60000`
when it is absent and `startTime` is present and `durationMin` is present
*and nonzero* (the zero case, truthiness-skipped by the code, is the
counterexample). -/
theorem normalizeMachine_eft_spec (id : String) (v : PartialMachine) :
    (∀ e, v.expectedFinishTime = some e → (normalizeMachine id v).expectedFinishTime = some e) ∧
    (∀ s d, v.expectedFinishTime = none → v.startTime = some s → v.durationMin = some d →
      d ≠ 0 → (normalizeMachine id v).expectedFinishTime = some (s + d * 60000)) := by
  constructor
  · intro e he
    unfold normalizeMachine
    simp [he]
  · intro s d he hs hd hdne
    unfold normalizeMachine
    simp [he, hs, hd, hdne, normalizeBase_eft]

/-- C8 witness: a 2-minute record round-trips to `startTime + 120000`. -/
theorem normalizeMachine_eft_spec_witness :
    (normalizeMachine "m1"
      { startTime := some 1000, durationMin := some 2 }).expectedFinishTime
      = some (1000 + 2 * 60000) :=
  (normalizeMachine_eft_spec "m1" { startTime := some 1000, durationMin := some 2 }).2
    1000 2 rfl rfl rfl (by norm_num)

/-- Helper: an `in-use` record owned by someone satisfies the availability
invariant (both sides false). -/
theorem availInv_of_inUse_owner {w : Machine} {u : String}
    (hs : w.state = MachineState.inUse) (ho : w.ownerUid = some u) : availInv w := by
  unfold availInv
  constructor
  · intro h; rw [hs] at h; cases h
  · rintro ⟨h1, _⟩; rw [ho] at h1; cases h1

/-- Helper: a tick either leaves a machine unchanged, or flips an `in-use`
machine to `finished` keeping owner and timing-source fields. -/
theorem tickMachine_shape (now : ℚ) (m : Machine) :
    (tickMachine now m).1 = m ∨
    ((tickMachine now m).1.state = MachineState.finished ∧
     (tickMachine now m).1.ownerUid = m.ownerUid ∧
     (tickMachine now m).1.ownerEmail = m.ownerEmail ∧
     (tickMachine now m).1.startTime = m.startTime ∧
     (tickMachine now m).1.durationMin = m.durationMin ∧
     m.state = MachineState.inUse) := by
  unfold tickMachine
  by_cases h1 : m.state ≠ MachineState.inUse
  · rw [if_pos h1]; left; rfl
  · rw [if_neg h1]
    push_neg at h1
    by_cases h2 : ¬ qTruthy (tickFinishTs m) = true ∨ now < (tickFinishTs m).getD 0
    · rw [if_pos h2]; left; rfl
    · rw [if_neg h2]
      right
      exact ⟨rfl, rfl, rfl, rfl, rfl, h1⟩

/-- Helper: a committed finish transaction stores an `available` record with
no `ownerUid` and the reset fields' owner/timing values. -/
theorem finishTxn_commit_shape (env : AdapterEnv) (store : Option Machine)
    (resetFields w : Machine)
    (h : finishMachineTransaction env store resetFields = Except.ok (true, some w)) :
    w.state = MachineState.available ∧ w.ownerUid = none ∧
    w.ownerEmail = resetFields.ownerEmail ∧ w.startTime = resetFields.startTime ∧
    w.durationMin = resetFields.durationMin := by
  unfold finishMachineTransaction at h
  by_cases hdb : env.dbInitialized = false
  · rw [if_pos hdb] at h; cases h
  · rw [if_neg hdb] at h
    by_cases hs : sTruthy env.authUid
    · rw [if_neg (not_not_intro hs)] at h
      by_cases ht : env.txnRejects
      · rw [if_pos ht] at h; simp at h
      · rw [if_neg ht] at h
        cases hst : store with
        | none => rw [hst] at h; simp [finishUpdater] at h
        | some c =>
          rw [hst] at h
          simp only [finishUpdater] at h
          by_cases hc : c.state = MachineState.inUse ∧ c.ownerUid = some (env.authUid.getD "")
          · rw [if_pos hc] at h
            injection h with h2
            rw [Prod.mk.injEq] at h2
            obtain ⟨_, hw⟩ := h2
            injection hw with hw2
            subst hw2
            exact ⟨rfl, rfl, rfl, rfl, rfl⟩
          · rw [if_neg hc] at h; simp at h
    · rw [if_pos hs] at h; simp at h

/-- C6 (amended): the available-iff-unowned invariant holds for every seeded
blank machine and is preserved by the engine's transitions: a committed
start stores an `in-use` record owned by the caller, a committed
`finishMachine` release stores an `available` record with null owner and
timing fields, and a tick never breaks the invariant.  Normalization of a
malformed stored record, however, does not enforce it (see the
counterexample). -/
theorem availInv_engine_ops :
    (∀ id label, availInv (createBlankMachine id label)) ∧
    (∀ env now store f w,
      startMachineTransaction env now store f = Except.ok (true, some w) → availInv w) ∧
    (∀ env now machines store id w,
      (finishMachine env now machines store id).2.1 = true →
      (finishMachine env now machines store id).2.2 = some w →
      w.state = MachineState.available ∧ w.ownerUid = none ∧ w.ownerEmail = none ∧
        w.startTime = none ∧ w.durationMin = none ∧ availInv w) ∧
    (∀ now m, availInv m → availInv (tickMachine now m).1) := by
  refine ⟨?_, ?_, ?_, ?_⟩
  · intro id label
    unfold availInv createBlankMachine
    simp
  · intro env now store f w hcommit
    unfold startMachineTransaction at hcommit
    by_cases hdb : env.dbInitialized = false
    · rw [if_pos hdb] at hcommit; cases hcommit
    · rw [if_neg hdb] at hcommit
      by_cases hs : sTruthy env.authUid
      · rw [if_neg (not_not_intro hs)] at hcommit
        by_cases ht : env.txnRejects
        · rw [if_pos ht] at hcommit; simp at hcommit
        · rw [if_neg ht] at hcommit
          cases hu : startUpdater (env.authUid.getD "") env.authEmail env.authDisplayName
              now f store with
          | none => rw [hu] at hcommit; simp at hcommit
          | some m =>
            rw [hu] at hcommit
            injection hcommit with h2
            rw [Prod.mk.injEq] at h2
            obtain ⟨_, hw⟩ := h2
            injection hw with hw2
            subst hw2
            obtain ⟨h1, h2⟩ := startUpdater_some_fields _ _ _ _ _ _ _ hu
            exact availInv_of_inUse_owner h1 h2
      · rw [if_pos hs] at hcommit; simp at hcommit
  · intro env now machines store id w h1 h2
    unfold finishMachine at h1 h2
    cases hf : machines.find? (fun m => m.id = id) with
    | none => rw [hf] at h1; cases h1
    | some machine =>
      rw [hf] at h1 h2
      rcases htx : finishMachineTransaction env store
          { machine with
            state := .available
            ownerEmail := none
            ownerName := none
            ownerUid := none
            startTime := none
            durationMin := none
            expectedFinishTime := none
            completedAt := none
            completionNotifiedAt := none
            lastReminderSent := none
            reminderCount := some 0
            reminderSubscribers := []
            reminderSubscribersUid := [] } with e | ⟨b, s2⟩
      · simp only [htx] at h1; cases h1
      · simp only [htx] at h1 h2
        subst h1
        subst h2
        obtain ⟨hs, ho, he, hst, hd⟩ := finishTxn_commit_shape env store _ w htx
        refine ⟨hs, ho, he, hst, hd, ?_⟩
        unfold availInv
        rw [hs, ho, he, hst, hd]
        simp
  · intro now m hm
    rcases tickMachine_shape now m with h | ⟨hs, ho, he, hst, hd, hin⟩
    · rw [h]; exact hm
    · unfold availInv
      constructor
      · intro hav; rw [hs] at hav; cases hav
      · rintro ⟨h1, h2, h3, h4⟩
        rw [ho] at h1; rw [he] at h2; rw [hst] at h3; rw [hd] at h4
        have hall := hm.mpr ⟨h1, h2, h3, h4⟩
        rw [hin] at hall; cases hall

/-- C6 witness: the invariant for a seeded blank and its preservation by a
tick on a concrete running machine. -/
theorem availInv_engine_ops_witness :
    availInv (tickMachine 2101001 mRun).1 :=
  availInv_engine_ops.2.2.2 2101001 mRun (by decide)

end LaundryQueue
